import Mathlib

/-!
# Verification of pyqsmod (`src/pyqsmod.py`)

Shallow embedding of the OpenArena/Quake3 log-statistics program `pyqsmod.py`.

Modelling conventions:
* Python `dict`s (insertion ordered, Python ≥ 3.7) are association lists
  `List (String × α)`; assignment to an existing key keeps its position,
  assignment to a fresh key appends at the end, lookup takes the first match.
* A raw log line is represented by the outcome of the fixed-substring
  classification plus the fields the event parsers extract from it
  (inductive `Line`).  Lines matching no marker, and kill lines whose
  fragger regex fails (the one extraction failure the source survives via
  `try/except`), are the constructors `other` / `killBad`.
* Machine integers are `Int`/`Nat`; the `MINPLAY` comparison, done with
  Python floats, is modelled in `ℚ` (exact for `MINPLAY = 0.5` and log-sized
  integers).
* Uncaught Python exceptions (KeyError on an unguarded dict access,
  `min`/`next` on an empty sequence, ZeroDivisionError, ...) are modelled by
  `Except Unit` / failure results; `try/except: pass` blocks are modelled by
  the explicit partial-mutation semantics of the source: statements already
  executed before the failing one keep their effect.
-/

namespace Pyqsmod

/-- Python dict as an insertion-ordered association list. -/
abbrev Dict (α : Type) := List (String × α)

/-- Python dict assignment `d[k] = v`: replace in place if the key exists,
append at the end otherwise. -/
def dictInsert (d : Dict α) (k : String) (v : α) : Dict α :=
  if (d.lookup k).isSome then
    d.map (fun p => if p.1 = k then (k, v) else p)
  else
    d ++ [(k, v)]

/-- `min` over a nonempty list of values, seeded with the first element. -/
def minList (v : Int) (l : List Int) : Int :=
  l.foldl min v

-- ===================  OPTIONS (source constants)  =================== --

def MAXPLAYERS : Int := 150

def SORT_OPTION : String := "time"

def BAN_LIST : List String := ["UnnamedPlayer", "a_player_I_dont_like"]

def MINPLAY : ℚ := 1/2

def NUMBER_OF_QUOTES : Nat := 15

def GTYPE_OVERRIDE : String := ""

def DISPLAY_CTF_TABLE : Bool := true

-- ===========================  Data model  =========================== --

/-- The per-match accumulator (`class Game`).  Fields `mapname`, `gametype`,
`ctfscores` and `pos` are attributes the source adds after `__init__`
(`mapname` starts as `[]`, modelled as `""`); `ctfscores` is absent until a
team-score line is seen, modelled as `Option`. -/
structure Game where
  number : Nat
  mapname : String := ""
  players : Dict (Nat × Nat) := []      -- nick ↦ (ping, position)
  pid : Dict String := []               -- client id ↦ nick
  handicap : Dict Nat := []
  teams : Dict String := []
  scores : List (Int × Int × Nat × String × String) := []
  awards : Dict (Dict Nat) := []
  itemsp : Dict (List String) := []
  killsp : Dict (List String) := [("<world>", [])]
  deathsp : Dict Nat := []
  ctf : Dict (Dict Nat) := []
  ptime : Dict Int := []                -- nick ↦ join offset (seconds)
  time : Int := 0
  validp : List String := []
  quotes : List (String × String) := []
  weapons : Dict (Dict Nat) := []
  gametype : String := ""
  ctfscores : Option (String × String) := none
  pos : Nat := 1
deriving Repr, DecidableEq

/-- The process-scoped accumulator (`class Server`).  `hostname` is an
attribute added by `lineProcInit`. -/
structure Server where
  time : Int := 0
  frags : Nat := 0
  gtype : Nat := 0
  hostname : String := ""
deriving Repr, DecidableEq

-- ==========================  Line alphabet  ========================= --

/-- A classified log line together with the fields its event parser
extracts.  `other` covers lines matching no marker and lines whose
classification falls through every `elif`; `killBad` is a kill line whose
fragger regex fails (the source returns the state unchanged). -/
inductive Line where
  | item
  | kill (killer killed weapon : String)
  | killBad
  | ctf (pid ev : String)
  | award (name aw : String)
  | userinfo (cid name : String) (hc : Option Nat) (team : String) (ts : Int)
  | say (name msg : String)
  | score (ts sc : Int) (ping : Nat) (cid nick : String)
  | teamscore (r b : String)
  | exitLimit (ts : Int)
  | shutdown
  | init (mapname hostname gametype : String)
  | warmup
  | other
deriving Repr, DecidableEq

/-- Does the line contain the warm-up marker (`' Warmup:'`)? -/
def Line.isWarmup : Line → Bool
  | .warmup => true
  | _ => false

-- ========================  Event parser rules  ====================== --

/-- Digit-by-digit accumulator for `strToNat?`. -/
def strToNatAux : List Char → Nat → Option Nat
  | [], acc => some acc
  | c :: cs, acc =>
    if 48 ≤ c.toNat ∧ c.toNat ≤ 57 then
      strToNatAux cs (acc * 10 + (c.toNat - 48))
    else none

/-- Python `int(s)` on a plain digit string: the parsed number, or `none`
(ValueError) when empty or holding a non-digit. -/
def strToNat? (s : String) : Option Nat :=
  match s.data with
  | [] => none
  | c :: cs => strToNatAux (c :: cs) 0

/-- `lineProcInit`: map name, gametype character and hostname from the init
line's key/value blob; `int(gametype)` defaults to `0` on `ValueError`. -/
def lineProcInit (mapname hostname gametype : String) (g : Game) (s : Server) :
    Game × Server :=
  ({ g with mapname := mapname, gametype := gametype },
   { s with hostname := hostname, gtype := (strToNat? gametype).getD 0 })

/-- `lineProcKills`: the `try` block mutates in sequence — self-kill appends
to the killer's `killsp` list, a regular kill increments
`weapons[killer][weapon[0:3]]`, a world kill appends the victim to
`killsp['<world>']` — then increments the victim's death counter.  A missing
key aborts the rest of the block (`except: pass`) but keeps the mutations
already made; `server.frags` is incremented only when the whole block
succeeded (`else:` clause of the `try`). -/
def lineProcKills (killer killed weapon : String) (g : Game) (s : Server) :
    Game × Server :=
  if killer = killed then
    match g.killsp.lookup killer with
    | none => (g, s)
    | some l =>
      let g1 := { g with killsp := dictInsert g.killsp killer (l ++ [weapon]) }
      match g1.deathsp.lookup killed with
      | none => (g1, s)
      | some d =>
        ({ g1 with deathsp := dictInsert g1.deathsp killed (d + 1) },
         { s with frags := s.frags + 1 })
  else if killer ≠ "<world>" then
    match g.weapons.lookup killer with
    | none => (g, s)
    | some wd =>
      match wd.lookup (weapon.take 3) with
      | none => (g, s)
      | some c =>
        let g1 := { g with
          weapons := dictInsert g.weapons killer
            (dictInsert wd (weapon.take 3) (c + 1)) }
        match g1.deathsp.lookup killed with
        | none => (g1, s)
        | some d =>
          ({ g1 with deathsp := dictInsert g1.deathsp killed (d + 1) },
           { s with frags := s.frags + 1 })
  else
    match g.killsp.lookup "<world>" with
    | none => (g, s)
    | some l =>
      let g1 := { g with killsp := dictInsert g.killsp "<world>" (l ++ [killed]) }
      match g1.deathsp.lookup killed with
      | none => (g1, s)
      | some d =>
        ({ g1 with deathsp := dictInsert g1.deathsp killed (d + 1) },
         { s with frags := s.frags + 1 })

/-- `lineProcCTF`: resolve the client id, then increment
`ctf[name][event]`; any missing key drops the event (`except: pass`). -/
def lineProcCTF (pid ev : String) (g : Game) : Game :=
  match g.pid.lookup pid with
  | none => g
  | some name =>
    match g.ctf.lookup name with
    | none => g
    | some d =>
      match d.lookup ev with
      | none => g
      | some c => { g with ctf := dictInsert g.ctf name (dictInsert d ev (c + 1)) }

/-- `lineProcAwards`: increment `awards[name][award]`; a missing key drops
the event (`except: pass`). -/
def lineProcAwards (name aw : String) (g : Game) : Game :=
  match g.awards.lookup name with
  | none => g
  | some d =>
    match d.lookup aw with
    | none => g
    | some c => { g with awards := dictInsert g.awards name (dictInsert d aw (c + 1)) }

/-- Fresh per-player award counters. -/
def initAwards : Dict Nat := [("A", 0), ("C", 0), ("D", 0), ("E", 0), ("I", 0)]

/-- Fresh per-player CTF event counters. -/
def initCtf : Dict Nat := [("0", 0), ("1", 0), ("2", 0), ("3", 0)]

/-- Fresh per-player weapon-frag counters (twelve 3-character codes). -/
def initWeapons : Dict Nat :=
  [("SHO", 0), ("GAU", 0), ("MAC", 0), ("GRE", 0),
   ("ROC", 0), ("PLA", 0), ("RAI", 0), ("LIG", 0),
   ("BFG", 0), ("TEL", 0), ("NAI", 0), ("CHA", 0)]

/-- `lineProcUserInfo`: when the display name was not seen yet in this match
all per-player dictionaries are seeded, the join offset is recorded and the
client id is bound to the name; the handicap regex failure defaults to 100.
When the name is already a value of `pid` the whole block is skipped. -/
def lineProcUserInfo (cid name : String) (hc : Option Nat) (team : String)
    (ts : Int) (g : Game) : Game :=
  let handicap := hc.getD 100
  if name ∈ g.pid.map Prod.snd then g
  else
    { g with
      itemsp := dictInsert g.itemsp name [],
      killsp := dictInsert g.killsp name [],
      deathsp := dictInsert g.deathsp name 0,
      awards := dictInsert g.awards name initAwards,
      handicap := dictInsert g.handicap name handicap,
      teams := dictInsert g.teams name team,
      ctf := dictInsert g.ctf name initCtf,
      weapons := dictInsert g.weapons name initWeapons,
      ptime := dictInsert g.ptime name ts,
      pid := dictInsert g.pid cid name }

/-- `lineProcQuotes`: add the (speaker, message) pair to the quote set. -/
def lineProcQuotes (name msg : String) (g : Game) : Game :=
  if (name, msg) ∈ g.quotes then g
  else { g with quotes := g.quotes ++ [(name, msg)] }

/-- The strict validity comparison `MINPLAY * x < y` (for
`(time − join) > MINPLAY × (time − earliest join)` with the source's
`MINPLAY = 0.5`), computed on exact rationals: Python's int/float
comparison is exact here since `0.5` and these halved log times are
exactly representable.  `minplayLt_iff` below restates it over `ℚ`. -/
def minplayLt (x y : Int) : Bool :=
  Rat.blt (mkRat x 2) (mkRat y 1)

/-- `lineProcScores`: record the score row, the player's ping and 1-based
scoreboard position, then decide validity by the strict `MINPLAY`
inequality.  The unguarded `game.ptime[nick]` access crashes the run
(KeyError) when the nick was never registered. -/
def lineProcScores (ts sc : Int) (ping : Nat) (cid nick : String) (g : Game) :
    Except Unit Game :=
  let g1 := { g with
    scores := g.scores ++ [(ts, sc, ping, cid, nick)],
    players := dictInsert g.players nick (ping, g.pos),
    pos := g.pos + 1 }
  match g1.ptime.lookup nick with
  | none => .error ()
  | some pt =>
    match g1.ptime.map Prod.snd with
    | [] => .error ()
    | v :: vs =>
      if minplayLt (g1.time - minList v vs) (g1.time - pt) then
        .ok { g1 with validp := g1.validp ++ [nick] }
      else
        .ok g1

-- =========================  Game segmenter  ========================= --

/-- Segmenter mode: `mainProcessing` scanning for a match start, or the
`oneGameProc` loop dispatching into the current `Game` (with the source's
`valid_game` flag). -/
inductive Mode where
  | idle
  | inMatch (g : Game) (v : Bool)

/-- End of a `oneGameProc` call (shutdown line or end of input): a valid
game keeps `N`, drops silently when zero players registered, and otherwise
adds `game.time − min(ptime.values())` to the server's cumulative time and
joins the match history.  An invalid game is discarded.  `min` of an empty
join-time map would be an uncaught ValueError. -/
def endGame (g : Game) (v : Bool) (s : Server) (cg : List Game) :
    Except Unit (Server × List Game) :=
  if v then
    if g.players.length = 0 then .ok (s, cg)
    else
      match g.ptime.map Prod.snd with
      | [] => .error ()
      | x :: xs =>
        .ok ({ s with time := s.time + g.time - minList x xs }, cg ++ [g])
  else .ok (s, cg)

/-- The single pass of `mainProcessing` driving `oneGameProc`, written as
the Idle/InMatch machine the two source loops implement over their shared
line generator.  Idle: an init line peeks the next line (`next(lines)`,
`StopIteration` at end of input); a warm-up follower discards both lines,
otherwise a fresh `Game` (sequence number `n`, score position 1) is seeded
by `lineProcInit` and dispatch starts with the line after the peeked one.
InMatch: classified lines go to their event-parser rule; a limit-reached
exit line stores the duration and sets the valid flag without ending
dispatch; a shutdown line (or end of input) ends the match via `endGame`
and scanning resumes Idle. -/
def mainGo : List Line → Mode → Server → List Game → Nat →
    Except Unit (Server × List Game)
  | [], .idle, s, cg, _ => .ok (s, cg)
  | [], .inMatch g v, s, cg, _ => endGame g v s cg
  | .init mapname hostname gametype :: l2 :: rest, .idle, s, cg, n =>
    if l2.isWarmup then mainGo rest .idle s cg n
    else
      let p := lineProcInit mapname hostname gametype { number := n } s
      mainGo rest (.inMatch p.1 false) p.2 cg (n + 1)
  | [.init _ _ _], .idle, _, _, _ => .error ()
  | _ :: rest, .idle, s, cg, n => mainGo rest .idle s cg n
  | .item :: rest, .inMatch g v, s, cg, n => mainGo rest (.inMatch g v) s cg n
  | .kill killer killed weapon :: rest, .inMatch g v, s, cg, n =>
    let p := lineProcKills killer killed weapon g s
    mainGo rest (.inMatch p.1 v) p.2 cg n
  | .killBad :: rest, .inMatch g v, s, cg, n => mainGo rest (.inMatch g v) s cg n
  | .ctf pid ev :: rest, .inMatch g v, s, cg, n =>
    mainGo rest (.inMatch (lineProcCTF pid ev g) v) s cg n
  | .award name aw :: rest, .inMatch g v, s, cg, n =>
    mainGo rest (.inMatch (lineProcAwards name aw g) v) s cg n
  | .userinfo cid name hc team ts :: rest, .inMatch g v, s, cg, n =>
    mainGo rest (.inMatch (lineProcUserInfo cid name hc team ts g) v) s cg n
  | .say name msg :: rest, .inMatch g v, s, cg, n =>
    mainGo rest (.inMatch (lineProcQuotes name msg g) v) s cg n
  | .score ts sc ping cid nick :: rest, .inMatch g v, s, cg, n =>
    match lineProcScores ts sc ping cid nick g with
    | .error e => .error e
    | .ok g' => mainGo rest (.inMatch g' v) s cg n
  | .teamscore r b :: rest, .inMatch g v, s, cg, n =>
    mainGo rest (.inMatch { g with ctfscores := some (r, b) } v) s cg n
  | .exitLimit ts :: rest, .inMatch g _, s, cg, n =>
    mainGo rest (.inMatch { g with time := ts } true) s cg n
  | .shutdown :: rest, .inMatch g v, s, cg, n =>
    match endGame g v s cg with
    | .error e => .error e
    | .ok (s', cg') => mainGo rest .idle s' cg' n
  | .init _ _ _ :: rest, .inMatch g v, s, cg, n =>
    mainGo rest (.inMatch g v) s cg n
  | .warmup :: rest, .inMatch g v, s, cg, n => mainGo rest (.inMatch g v) s cg n
  | .other :: rest, .inMatch g v, s, cg, n => mainGo rest (.inMatch g v) s cg n

/-- `mainProcessing` proper: start Idle with a fresh `Server` and game
number 1. -/
def mainProcessing (log : List Line) : Except Unit (Server × List Game) :=
  mainGo log .idle {} [] 1

-- ===========================  Aggregator  =========================== --

/-- Unguarded dict access: KeyError propagates as a run failure. -/
def dlook (d : Dict α) (k : String) : Except Unit α :=
  match d.lookup k with
  | some v => .ok v
  | none => .error ()

/-- `csum`: column-wise addition of a list of (rectangular) rows.  The
source crashes on an empty argument (`A[0]`); its callers guard this
(nonzero frags implies at least one contributing row). -/
def csum (A : List (List Nat)) : List Nat :=
  match A with
  | [] => []
  | r :: _ => (List.range r.length).map (fun i => (A.map (fun row => row.getD i 0)).sum)

/-- `allnames`: the union of the matches' valid-player lists.  The source
builds a Python `set` (nondeterministic iteration order); the model fixes
first-appearance order, which no claim depends on. -/
def allnames (cgames : List Game) : List String :=
  cgames.foldl (fun acc g => g.validp.foldl
    (fun acc' n => if n ∈ acc' then acc' else acc' ++ [n]) acc) []

/-- The per-game, per-player record `player_stats` returns (the source's
12-element list, minus the `key` legend). -/
structure PStats where
  win : Nat
  time : Int
  hand : Nat
  ping : Nat
  frags : Nat
  deaths : Nat
  suics : Nat
  wfrags : Nat
  awards : List Nat
  weapon_count : List Nat
  ctf_events : List Nat
deriving Repr, DecidableEq

/-- Strict Unicode-code-point lexicographic order on char lists — the
order Python (and Lean) use to compare strings. -/
def charsLt : List Char → List Char → Bool
  | [], [] => false
  | [], _ :: _ => true
  | _ :: _, [] => false
  | a :: as, b :: bs =>
    if a.val < b.val then true
    else if b.val < a.val then false
    else charsLt as bs

/-- Python `a < b` on strings. -/
def strLt (a b : String) : Bool := charsLt a.data b.data

/-- Python `a <= b` on strings. -/
def strLe (a b : String) : Bool := !(strLt b a)

/-- Stable insertion of a key/value pair into a key-ascending list
(Python `sorted` over dict items; keys of a dict are distinct, so
comparing keys only is exact). -/
def insertPairAsc (x : String × Nat) : Dict Nat → Dict Nat
  | [] => [x]
  | y :: ys => if strLe y.1 x.1 then y :: insertPairAsc x ys else x :: y :: ys

/-- `sorted(d.items())`. -/
def sortItems (d : Dict Nat) : Dict Nat :=
  d.foldl (fun acc x => insertPairAsc x acc) []

/-- The fixed 16-name weapon list of `player_stats`. -/
def wlist : List String :=
  ["SHOTGUN", "GAUNTLET", "MACHINEGUN", "GRENADE", "GRENADE_SPLASH",
   "ROCKET", "ROCKET_SPLASH", "PLASMA", "PLASMA_SPLASH", "RAILGUN",
   "LIGHTNING", "BFG10K", "BFG10K_SPLASH", "TELEFRAG", "NAIL", "CHAIN"]

/-- `[game.weapons[player_name][w[0:3]] for w in wlist]`; a missing
3-character code is an uncaught KeyError. -/
def lookupWeapons (wd : Dict Nat) : List String → Except Unit (List Nat)
  | [] => .ok []
  | w :: ws =>
    match wd.lookup (w.take 3) with
    | none => .error ()
    | some c =>
      match lookupWeapons wd ws with
      | .error e => .error e
      | .ok cs => .ok (c :: cs)

/-- Win determination of `player_stats`.  Non-team gametypes: scoreboard
position 1.  Team/CTF gametypes: compare `ctfscores[int(team) - 1]` with
`max(ctfscores)` under `try/except(IndexError)`; a missing `ctfscores`
attribute (AttributeError) or non-numeric team (ValueError) is uncaught;
team `'0'` hits Python index `-1` (the second component), indexes ≥ 2 hit
the caught IndexError and yield a loss. -/
def winCalc (game : Game) (name : String) : Except Unit Nat :=
  if game.gametype ≠ "4" ∧ game.gametype ≠ "3" then
    match game.players.lookup name with
    | none => .error ()
    | some pp => .ok (if pp.2 = 1 then 1 else 0)
  else
    match game.teams.lookup name with
    | none => .error ()
    | some team =>
      match game.ctfscores with
      | none => .error ()
      | some (r, b) =>
        match strToNat? team with
        | none => .error ()
        | some tn =>
          let mx := if strLt r b then b else r
          if tn = 1 then .ok (if r = mx then 1 else 0)
          else if tn = 2 then .ok (if b = mx then 1 else 0)
          else if tn = 0 then .ok (if b = mx then 1 else 0)
          else .ok 0

/-- Per-CTF-event counters of `player_stats`: for gametype `'4'` the
3-tuple (flags taken `'0'`, flags returned `'2'`, flag carriers fragged
`'3'`), otherwise `(0, 0, 0)`. -/
def ctfEventsCalc (game : Game) (name : String) : Except Unit (List Nat) :=
  if game.gametype = "4" then
    match game.ctf.lookup name with
    | none => .error ()
    | some cd =>
      match cd.lookup "0", cd.lookup "2", cd.lookup "3" with
      | some t0, some t2, some t3 => .ok [t0, t2, t3]
      | _, _, _ => .error ()
  else .ok [0, 0, 0]

/-- `player_stats`: the per-game, per-player record.  Returns `none` (the
source's `0`) for a player not tagged valid; every dict access is
unguarded. -/
def player_stats (game : Game) (name : String) : Except Unit (Option PStats) :=
  if name ∉ game.validp then .ok none else
  match game.ptime.lookup name with
  | none => .error ()
  | some pt =>
  match game.players.lookup name with
  | none => .error ()
  | some pp =>
  match game.handicap.lookup name with
  | none => .error ()
  | some hand =>
  match winCalc game name with
  | .error e => .error e
  | .ok win =>
  match game.awards.lookup name with
  | none => .error ()
  | some ad =>
  match game.killsp.lookup "<world>" with
  | none => .error ()
  | some wl =>
  match game.deathsp.lookup name with
  | none => .error ()
  | some deaths =>
  match game.killsp.lookup name with
  | none => .error ()
  | some kl =>
  match game.weapons.lookup name with
  | none => .error ()
  | some wd =>
  match lookupWeapons wd wlist with
  | .error e => .error e
  | .ok wc =>
  match ctfEventsCalc game name with
  | .error e => .error e
  | .ok cev =>
    .ok (some {
      win := win
      time := game.time - pt
      hand := hand
      ping := pp.1
      frags := (wd.map Prod.snd).sum
      deaths := deaths
      suics := kl.length
      wfrags := wl.count name
      awards := (sortItems ad).map Prod.snd
      weapon_count := wc
      ctf_events := cev })

/-- The aggregated career record (`one_player` dict). -/
structure OnePlayer where
  name : String
  games : Nat
  won : Nat
  time : Int
  hand : ℚ
  ping : List ℚ
  frags : Nat
  deaths : Nat
  suics : Nat
  wfrags : Nat
  excellent : Nat
  impressive : Nat
  defence : Nat
  capture : Nat
  assist : Nat
  weapons : List Nat
  ctf : List Nat
deriving Repr, DecidableEq, Inhabited

/-- The `for i in range(len(cgames))` loop of `player_stats_total`: gather
the `player_stats` records of the games where `name` is tagged valid, in
log order.  (`player_stats` cannot return its not-valid `0` under the
loop's own validity guard; the source would crash indexing an `int` there,
modelled as a failure.) -/
def collect (name : String) : List Game → Except Unit (List PStats)
  | [] => .ok []
  | g :: rest =>
    if name ∈ g.validp then
      match player_stats g name with
      | .error e => .error e
      | .ok none => .error ()
      | .ok (some st) =>
        match collect name rest with
        | .error e => .error e
        | .ok sts => .ok (st :: sts)
    else collect name rest

/-- Fold one player's valid-game records into a career record; `none` drops
a player whose total frags are zero.  The award sums index the per-game
5-element award list (an out-of-range index would be an uncaught
IndexError, modelled as failure); handicap/ping means divide by the number
of contributing games, nonzero here because the frags are. -/
def aggName (cgames : List Game) (name : String) : Except Unit (Option OnePlayer) :=
  match collect name cgames with
  | .error e => .error e
  | .ok sts =>
    if (sts.map (·.frags)).sum = 0 then .ok none
    else if ¬ sts.all (fun st => 5 ≤ st.awards.length) then .error ()
    else
      match sts with
      | [] => .error ()
      | st0 :: stRest =>
        let hands := (st0 :: stRest).map (·.hand)
        let pings := (st0 :: stRest).map (·.ping)
        .ok (some {
          name := name
          games := (st0 :: stRest).length
          won := ((st0 :: stRest).map (·.win)).sum
          time := ((st0 :: stRest).map (·.time)).sum
          hand := (hands.sum : ℚ) / (hands.length : ℚ)
          ping := [((stRest.map (·.ping)).foldl min st0.ping : ℚ),
                   (pings.sum : ℚ) / (pings.length : ℚ),
                   ((stRest.map (·.ping)).foldl max st0.ping : ℚ)]
          frags := ((st0 :: stRest).map (·.frags)).sum
          deaths := ((st0 :: stRest).map (·.deaths)).sum
          suics := ((st0 :: stRest).map (·.suics)).sum
          wfrags := ((st0 :: stRest).map (·.wfrags)).sum
          assist := ((st0 :: stRest).map (fun st => st.awards.getD 0 0)).sum
          capture := ((st0 :: stRest).map (fun st => st.awards.getD 1 0)).sum
          defence := ((st0 :: stRest).map (fun st => st.awards.getD 2 0)).sum
          excellent := ((st0 :: stRest).map (fun st => st.awards.getD 3 0)).sum
          impressive := ((st0 :: stRest).map (fun st => st.awards.getD 4 0)).sum
          weapons := csum ((st0 :: stRest).map (·.weapon_count))
          ctf := csum ((st0 :: stRest).map (·.ctf_events)) })

/-- The outer name loop of `player_stats_total`. -/
def psGo (cgames : List Game) : List String → Except Unit (List OnePlayer)
  | [] => .ok []
  | n :: ns =>
    match aggName cgames n with
    | .error e => .error e
    | .ok none => psGo cgames ns
    | .ok (some p) =>
      match psGo cgames ns with
      | .error e => .error e
      | .ok tl => .ok (p :: tl)

/-- `player_stats_total`: accumulated stats for every valid player. -/
def player_stats_total (cgames : List Game) : Except Unit (List OnePlayer) :=
  psGo cgames (allnames cgames)

-- =============================  Ranker  ============================= --

/-- Outcome of `results_ordered`: a ranked list, the source's
`return None` after an "INVALID ..." message, or an uncaught exception
(ZeroDivisionError in a synthetic sort key, `R[0]` on an empty list). -/
inductive RankResult where
  | ok (l : List OnePlayer)
  | invalid
  | fault
deriving Repr, DecidableEq

/-- A sortable field value: Python compares numbers, lists and strings per
key; one key always yields one shape, so the heterogeneous cases are dead
code. -/
inductive FieldVal where
  | q (x : ℚ)
  | list (l : List ℚ)
  | str (s : String)
deriving Repr, DecidableEq

/-- Python's lexicographic list comparison.  (`Rat.blt` is, definitionally,
`<` on `ℚ`.) -/
def lexLe : List ℚ → List ℚ → Bool
  | [], _ => true
  | _ :: _, [] => false
  | a :: as, b :: bs =>
    if Rat.blt a b then true else if Rat.blt b a then false else lexLe as bs

/-- `≤` on `ℚ` as a Bool (definitionally, core's `LE Rat`). -/
def qLe (a b : ℚ) : Bool := !(Rat.blt b a)

def fvLe : FieldVal → FieldVal → Bool
  | .q a, .q b => qLe a b
  | .list a, .list b => lexLe a b
  | .str a, .str b => strLe a b
  | _, _ => false

/-- Insert into a key-descending list after every entry with a key ≥ the
new one: with elements fed in original order this reproduces Python's
stable `sorted(..., reverse=True)`. -/
def insertDescBy (le : β → β → Bool) (x : β × OnePlayer) :
    List (β × OnePlayer) → List (β × OnePlayer)
  | [] => [x]
  | y :: ys => if le x.1 y.1 then y :: insertDescBy le x ys else x :: y :: ys

def sortDescBy (le : β → β → Bool) (l : List (β × OnePlayer)) :
    List (β × OnePlayer) :=
  l.foldl (fun acc x => insertDescBy le x acc) []

/-- Ascending, stable counterpart (`reverse=False`). -/
def insertAscBy (le : β → β → Bool) (x : β × OnePlayer) :
    List (β × OnePlayer) → List (β × OnePlayer)
  | [] => [x]
  | y :: ys => if le y.1 x.1 then y :: insertAscBy le x ys else x :: y :: ys

def sortAscBy (le : β → β → Bool) (l : List (β × OnePlayer)) :
    List (β × OnePlayer) :=
  l.foldl (fun acc x => insertAscBy le x acc) []

/-- Evaluate a synthetic sort key on every element (CPython's `sorted`
computes the key array up front); a zero denominator raises
ZeroDivisionError, i.e. yields `none`. -/
def keyed (key : OnePlayer → Option ℚ) : List OnePlayer →
    Option (List (ℚ × OnePlayer))
  | [] => some []
  | p :: ps =>
    match key p with
    | none => none
    | some k =>
      match keyed key ps with
      | none => none
      | some tl => some ((k, p) :: tl)

/-- `float(dic['frags'])/dic['deaths']` — unguarded. -/
def fragDeathKey (p : OnePlayer) : Option ℚ :=
  if p.deaths = 0 then none else some ((p.frags : ℚ) / (p.deaths : ℚ))

/-- `float(dic['won'])/dic['games']` — unguarded. -/
def wonPctKey (p : OnePlayer) : Option ℚ :=
  if p.games = 0 then none else some ((p.won : ℚ) / (p.games : ℚ))

/-- `float(dic['frags'])/dic['time']` — unguarded. -/
def fphKey (p : OnePlayer) : Option ℚ :=
  if p.time = 0 then none else some ((p.frags : ℚ) / (p.time : ℚ))

/-- The keys of the `one_player` dict (`R[0].keys()`). -/
def RKeys : List String :=
  ["name", "games", "won", "time", "hand", "ping", "frags", "deaths",
   "suics", "wfrags", "excellent", "impressive", "defence", "capture",
   "assist", "weapons", "ctf"]

/-- `dic[option]` for the generic branch (`'name'` is special-cased away
before this branch is reached). -/
def fieldVal (p : OnePlayer) : String → FieldVal
  | "name" => .str p.name
  | "games" => .q p.games
  | "won" => .q p.won
  | "time" => .q p.time
  | "hand" => .q p.hand
  | "ping" => .list p.ping
  | "frags" => .q p.frags
  | "deaths" => .q p.deaths
  | "suics" => .q p.suics
  | "wfrags" => .q p.wfrags
  | "excellent" => .q p.excellent
  | "impressive" => .q p.impressive
  | "defence" => .q p.defence
  | "capture" => .q p.capture
  | "assist" => .q p.assist
  | "weapons" => .list (p.weapons.map (fun n => (n : ℚ)))
  | "ctf" => .list (p.ctf.map (fun n => (n : ℚ)))
  | _ => .q 0

/-- The sort-and-truncate core of `results_ordered` (after the
`maxnumber` validation), truncating to the first `n` entries. -/
def resultsSort (R : List OnePlayer) (option : String) (n : Nat) : RankResult :=
  if option = "frag_death_ratio" then
    match keyed fragDeathKey R with
    | none => .fault
    | some kps => .ok (((sortDescBy qLe kps).map Prod.snd).take n)
  else if option = "won_percentage" then
    match keyed wonPctKey R with
    | none => .fault
    | some kps => .ok (((sortDescBy qLe kps).map Prod.snd).take n)
  else if option = "frags_per_hour" then
    match keyed fphKey R with
    | none => .fault
    | some kps => .ok (((sortDescBy qLe kps).map Prod.snd).take n)
  else if option = "name" then
    match keyed fragDeathKey R with
    | none => .fault
    | some kps => .ok (((sortAscBy qLe kps).map Prod.snd).take n)
  else
    match R with
    | [] => .fault
    | _ :: _ =>
      if option ∈ RKeys then
        .ok (((sortDescBy fvLe (R.map (fun p => (fieldVal p option, p)))).map
          Prod.snd).take n)
      else .invalid

/-- `results_ordered`: `maxnumber` larger than the set is clamped to the
set's size (the `elif maxnumber <= 0` test is then skipped);
`maxnumber ≤ 0` fails with no result.  (`is_number` is trivially true for
the integer `MAXPLAYERS` the source passes.) -/
def results_ordered (R : List OnePlayer) (option : String) (maxnumber : Int) :
    RankResult :=
  if maxnumber > R.length then resultsSort R option R.length
  else if maxnumber ≤ 0 then .invalid
  else resultsSort R option maxnumber.toNat

-- ========================  Table projector  ========================= --

/-- One row of `make_stats_table` (numeric derivation; the source's final
`round`/`str` pass is presentation).  Denominators `games` and `time` are
unguarded ZeroDivisionErrors; the frags-per-death and frag-percentage
columns use add-one smoothing. -/
def statsRow (p : OnePlayer) : Option (List ℚ) :=
  if p.games = 0 ∨ p.time = 0 then none
  else some
    [100 * (p.won : ℚ) / (p.games : ℚ),
     (p.frags : ℚ) / ((1 + p.deaths : ℕ) : ℚ),
     3600 * (p.frags : ℚ) / (p.time : ℚ),
     (p.frags : ℚ) / (p.games : ℚ),
     3600 * (p.deaths : ℚ) / (p.time : ℚ),
     (p.deaths : ℚ) / (p.games : ℚ),
     3600 * ((p.suics + p.wfrags : ℕ) : ℚ) / (p.time : ℚ),
     ((p.suics + p.wfrags : ℕ) : ℚ) / (p.games : ℚ),
     100 * (p.frags : ℚ) / ((1 + p.frags + p.deaths : ℕ) : ℚ)]

/-- `make_stats_table`: ratio rows for every ranked player, in order; the
first zero denominator aborts the table (uncaught ZeroDivisionError). -/
def make_stats_table : List OnePlayer → Option (List (String × List ℚ))
  | [] => some []
  | p :: R =>
    match statsRow p with
    | none => none
    | some row =>
      match make_stats_table R with
      | none => none
      | some tl => some ((p.name, row) :: tl)

/-- `make_ctf_table`: per player, the name, the aggregated `ctf` vector and
the defence/assist/capture award totals. -/
def make_ctf_table (R : List OnePlayer) : List (String × List Nat) :=
  R.map (fun p => (p.name, p.ctf ++ [p.defence, p.assist, p.capture]))

-- ======================================================================
--  Theorems
-- ======================================================================

/-- The computable validity test is the strict rational inequality
`MINPLAY * x < y`. -/
theorem minplayLt_iff (x y : Int) :
    minplayLt x y = true ↔ MINPLAY * (x : ℚ) < (y : ℚ) := by
  have h2 : (mkRat x 2 : ℚ) = (x : ℚ) / 2 := by
    rw [Rat.mkRat_eq_div]; norm_num
  have h1 : (mkRat y 1 : ℚ) = (y : ℚ) := Rat.mkRat_one y
  have h0 : (minplayLt x y = true) ↔ (mkRat x 2 < mkRat y 1) := Iff.rfl
  rw [h0, h1, h2, MINPLAY]
  constructor <;> intro h <;> linarith

-- ----------------------------  Claim C6  ---------------------------- --

/-- A game in which display name `A` is registered (bound to client id
`1`, handicap 100, team `1`). -/
def g6cex : Game :=
  { number := 1
    pid := [("1", "A")]
    handicap := [("A", 100)]
    teams := [("A", "1")]
    itemsp := [("A", [])]
    killsp := [("<world>", []), ("A", [])]
    deathsp := [("A", 0)]
    awards := [("A", initAwards)]
    ctf := [("A", initCtf)]
    weapons := [("A", initWeapons)]
    ptime := [("A", 0)] }

/-- C6 counterexample: a UserinfoChanged line for the already-seen name
`A` carrying a new client id `2`, handicap 50 and team `2` leaves the
`Game` completely unchanged — the handicap stays 100, the team stays `1`,
and id `2` is *not* rebound to `A` — contradicting the claim that team and
handicap are updated and the id is rebound. -/
theorem C6_counterexample :
    lineProcUserInfo "2" "A" (some 50) "2" 30 g6cex = g6cex ∧
    (lineProcUserInfo "2" "A" (some 50) "2" 30 g6cex).handicap.lookup "A" =
      some 100 ∧
    (lineProcUserInfo "2" "A" (some 50) "2" 30 g6cex).teams.lookup "A" =
      some "1" ∧
    (lineProcUserInfo "2" "A" (some 50) "2" 30 g6cex).pid.lookup "2" = none :=
  ⟨rfl, rfl, rfl, rfl⟩

/-- C6 (amended): for every UserinfoChanged line whose display name was
already seen in the current match, processing is a complete no-op: team
and handicap are *not* updated, the join offset and counters are left
unchanged, and the client id is *not* rebound — the whole `Game` record is
returned unchanged. -/
theorem C6_amended (cid name : String) (hc : Option Nat) (team : String)
    (ts : Int) (g : Game) (hseen : name ∈ g.pid.map Prod.snd) :
    lineProcUserInfo cid name hc team ts g = g := by
  simp [lineProcUserInfo, hseen]

/-- C6 witness: the no-op at the concrete reconnect line. -/
theorem C6_witness :
    lineProcUserInfo "2" "A" (some 50) "2" 30 g6cex = g6cex :=
  C6_amended "2" "A" (some 50) "2" 30 g6cex (by decide)

-- ----------------------------  Claim C2  ---------------------------- --

/-- Does the `try` block of `lineProcKills` run to completion (no missing
dictionary key)?  Exactly then the source's `else:` clause increments
`server.frags`. -/
def killSucceeds (killer killed weapon : String) (g : Game) : Bool :=
  if killer = killed then
    (g.killsp.lookup killer).isSome && (g.deathsp.lookup killed).isSome
  else if killer ≠ "<world>" then
    ((g.weapons.lookup killer).bind
      (fun wd => wd.lookup (weapon.take 3))).isSome &&
      (g.deathsp.lookup killed).isSome
  else
    (g.killsp.lookup "<world>").isSome && (g.deathsp.lookup killed).isSome

/-- C2 counterexample: a *self-kill* by the registered player `A`
increments the Server total-frags counter (from 0 to 1), contradicting the
claim that only regular kills (killer ≠ victim, killer ≠ world) do. -/
theorem C2_counterexample :
    (lineProcKills "A" "A" "ROCKET" g6cex { frags := 0 }).2.frags = 1 ∧
    (lineProcKills "<world>" "A" "MOD" g6cex { frags := 0 }).2.frags = 1 :=
  ⟨rfl, rfl⟩

/-- C2 (amended): processing a kill event increments the Server's
total-frags counter if and only if the event's dictionary updates all
succeed — i.e. also for self-kills and world-kills whose killer/victim
entries are registered, not only for regular kills.  (The increment sits
in the `else:` clause of the source's `try`, which runs on success of the
whole block regardless of the kill's kind.) -/
theorem C2_amended (killer killed weapon : String) (g : Game) (s : Server) :
    (lineProcKills killer killed weapon g s).2.frags =
      s.frags + (if killSucceeds killer killed weapon g then 1 else 0) := by
  unfold lineProcKills killSucceeds
  split
  · cases h1 : g.killsp.lookup killer with
    | none => simp [h1]
    | some l =>
      cases h2 : g.deathsp.lookup killed with
      | none => simp [h1, h2]
      | some d => simp [h1, h2]
  · split
    · cases h1 : g.weapons.lookup killer with
      | none => simp [h1]
      | some wd =>
        cases h2 : wd.lookup (weapon.take 3) with
        | none => simp [h1, h2]
        | some c =>
          cases h3 : g.deathsp.lookup killed with
          | none => simp [h1, h2, h3]
          | some d => simp [h1, h2, h3]
    · cases h1 : g.killsp.lookup "<world>" with
      | none => simp [h1]
      | some l =>
        cases h2 : g.deathsp.lookup killed with
        | none => simp [h1, h2]
        | some d => simp [h1, h2]

-- ----------------------------  Claim C4  ---------------------------- --

/-- C4 counterexample: a kill line with the registered killer `A` and the
*unregistered* victim `B` is not dropped atomically: the killer's `ROC`
weapon counter is incremented (0 → 1) even though the victim's death
counter and the Server's frags stay untouched. -/
theorem C4_counterexample :
    ((lineProcKills "A" "B" "ROCKET" g6cex { frags := 0 }).1.weapons.lookup
      "A").bind (fun wd => wd.lookup "ROC") = some 1 ∧
    (g6cex.weapons.lookup "A").bind (fun wd => wd.lookup "ROC") = some 0 ∧
    g6cex.deathsp.lookup "B" = none ∧
    (lineProcKills "A" "B" "ROCKET" g6cex { frags := 0 }).2.frags = 0 :=
  ⟨rfl, rfl, rfl, rfl⟩

/-- C4 (amended): a kill event is dropped atomically only when the
*killer's* entry is missing (for a self- or regular kill with a killer
other than the world sentinel); when only the *victim* is unregistered,
the killer-side mutation already made (weapon counter or world-kill list)
persists, while the victim's death counter and the Server's state remain
unchanged. -/
theorem C4_amended (killer killed weapon : String) (g : Game) (s : Server) :
    (killer ≠ "<world>" → g.killsp.lookup killer = none →
      g.weapons.lookup killer = none →
      lineProcKills killer killed weapon g s = (g, s)) ∧
    (g.deathsp.lookup killed = none →
      (lineProcKills killer killed weapon g s).1.deathsp = g.deathsp ∧
      (lineProcKills killer killed weapon g s).2 = s) := by
  constructor
  · intro hw h1 h2
    unfold lineProcKills
    split
    · simp [h1]
    · simp [h2]
  · intro hd
    unfold lineProcKills
    split
    · cases h1 : g.killsp.lookup killer with
      | none => simp
      | some l => simp [h1, hd]
    · split
      · cases h1 : g.weapons.lookup killer with
        | none => simp
        | some wd =>
          cases h2 : wd.lookup (weapon.take 3) with
          | none => simp [h1, h2]
          | some c => simp [h1, h2, hd]
      · cases h1 : g.killsp.lookup "<world>" with
        | none => simp
        | some l => simp [h1, hd]

/-- C4 witness: both parts at concrete inputs — an unknown killer `X`
drops the event entirely; the unregistered victim `B` leaves deaths and
Server untouched (while `C4_counterexample` shows the weapon counter did
move). -/
theorem C4_witness :
    (lineProcKills "X" "A" "ROCKET" g6cex { frags := 0 } =
      (g6cex, { frags := 0 })) ∧
    (lineProcKills "A" "B" "ROCKET" g6cex { frags := 0 }).1.deathsp =
      g6cex.deathsp ∧
    (lineProcKills "A" "B" "ROCKET" g6cex { frags := 0 }).2 =
      { frags := 0 } :=
  ⟨(C4_amended "X" "A" "ROCKET" g6cex { frags := 0 }).1 (by decide) rfl rfl,
   (C4_amended "A" "B" "ROCKET" g6cex { frags := 0 }).2 rfl⟩

-- ----------------------------  Claim C8  ---------------------------- --

/-- C8: player validity is decided by the strict inequality
`(matchDuration − joinOffset) > MINPLAY × (matchDuration − earliestJoinOffset)`:
the nick is appended to the valid-player list when it holds and not
appended otherwise; in particular a played time exactly equal to the
threshold leaves the player invalid. -/
theorem C8_valid_strict (ts sc : Int) (ping : Nat) (cid nick : String)
    (g : Game) (pt v : Int) (vs : List Int)
    (hpt : g.ptime.lookup nick = some pt)
    (hvals : g.ptime.map Prod.snd = v :: vs) :
    ∃ g', lineProcScores ts sc ping cid nick g = .ok g' ∧
      (MINPLAY * ((g.time - minList v vs : Int) : ℚ) <
          ((g.time - pt : Int) : ℚ) →
        g'.validp = g.validp ++ [nick]) ∧
      (¬ (MINPLAY * ((g.time - minList v vs : Int) : ℚ) <
          ((g.time - pt : Int) : ℚ)) →
        g'.validp = g.validp) ∧
      (((g.time - pt : Int) : ℚ) =
          MINPLAY * ((g.time - minList v vs : Int) : ℚ) →
        g'.validp = g.validp) := by
  unfold lineProcScores
  dsimp only
  rw [hpt, hvals]
  dsimp only
  by_cases hlt : minplayLt (g.time - minList v vs) (g.time - pt) = true
  · rw [if_pos hlt]
    refine ⟨_, rfl, fun _ => rfl, fun hn => ?_, fun heq => ?_⟩
    · exact absurd ((minplayLt_iff _ _).mp hlt) hn
    · have hl := (minplayLt_iff _ _).mp hlt
      rw [heq] at hl
      exact absurd hl (lt_irrefl _)
  · rw [if_neg hlt]
    refine ⟨_, rfl, fun hl => ?_, fun _ => rfl, fun _ => rfl⟩
    exact absurd ((minplayLt_iff _ _).mpr hl) hlt

/-- Boundary game for C8: the match lasts 10 s, `A` joined at 0 and `B`
at 5 — `B`'s played time (5 s) exactly equals
`MINPLAY × (10 − 0) = 5 s`. -/
def g8w : Game :=
  { number := 1
    ptime := [("A", 0), ("B", 5)]
    time := 10 }

/-- C8 witness: at the exact boundary the nick `B` is *not* added to the
valid-player list. -/
theorem C8_witness :
    ∃ g', lineProcScores 10 7 20 "3" "B" g8w = .ok g' ∧ g'.validp = [] := by
  obtain ⟨g', he, -, hnlt, -⟩ :=
    C8_valid_strict 10 7 20 "3" "B" g8w 5 0 [5] rfl rfl
  refine ⟨g', he, ?_⟩
  have h0 : g8w.validp = [] := rfl
  rw [← h0]
  apply hnlt
  simp only [minList, List.foldl, g8w, MINPLAY]
  norm_num

-- ----------------------------  Claim C3  ---------------------------- --

/-- A sample aggregated player for exercising the ranking step. -/
def p3 : OnePlayer where
  name := "P"
  games := 1
  won := 1
  time := 600
  hand := 100
  ping := [20, 20, 20]
  frags := 5
  deaths := 3
  suics := 0
  wfrags := 0
  excellent := 0
  impressive := 0
  defence := 0
  capture := 0
  assist := 0
  weapons := [5, 0, 0, 0, 0, 0, 0, 0, 0, 0, 0, 0, 0, 0, 0, 0]
  ctf := [0, 0, 0]

/-- C3 counterexample: a result count (5) strictly greater than the size
of the aggregated set (1) does *not* make the ranking step fail — it is
clamped and the full sorted list is returned. -/
theorem C3_counterexample :
    results_ordered [p3] "time" 5 = .ok [p3] := by rfl

/-- C3 (amended): the result count must be a positive integer:
`N ≤ 0` fails outright with no partial result, but `N` *greater* than the
set's size does not fail — it is clamped to the set's size before the
sort-and-truncate step runs. -/
theorem C3_amended (R : List OnePlayer) (option : String) (mn : Int) :
    (mn ≤ 0 → results_ordered R option mn = .invalid) ∧
    (mn > R.length → results_ordered R option mn = resultsSort R option R.length) := by
  constructor
  · intro h
    have hlen : ¬ (mn > (R.length : Int)) := by
      have h0 : (0 : Int) ≤ (R.length : Int) := Int.ofNat_nonneg _
      omega
    unfold results_ordered
    rw [if_neg hlen, if_pos h]
  · intro h
    unfold results_ordered
    rw [if_pos h]

/-- C3 witness: with the one-player set, `N = 0` fails and `N = 5` runs
the clamped sort. -/
theorem C3_witness :
    results_ordered [p3] "time" 0 = .invalid ∧
    results_ordered [p3] "time" 5 = resultsSort [p3] "time" 1 :=
  ⟨(C3_amended [p3] "time" 0).1 (by norm_num),
   (C3_amended [p3] "time" 5).2 (by norm_num)⟩

-- ----------------------------  Claim C7  ---------------------------- --

/-- An aggregated player with nonzero frags and *zero deaths*. -/
def p7 : OnePlayer where
  name := "Q"
  games := 1
  won := 1
  time := 600
  hand := 100
  ping := [20, 20, 20]
  frags := 5
  deaths := 0
  suics := 0
  wfrags := 0
  excellent := 0
  impressive := 0
  defence := 0
  capture := 0
  assist := 0
  weapons := [5, 0, 0, 0, 0, 0, 0, 0, 0, 0, 0, 0, 0, 0, 0, 0]
  ctf := [0, 0, 0]

/-- C7 counterexample: with a zero-deaths player in the set (every member
having non-zero total frags), sorting by the frag/death-ratio key and by
the name key faults (ZeroDivisionError) — the ratio is not guarded. -/
theorem C7_counterexample :
    results_ordered [p7] "frag_death_ratio" 1 = .fault ∧
    results_ordered [p7] "name" 1 = .fault :=
  ⟨rfl, rfl⟩

/-- `keyed` over the frag/death ratio succeeds when every member has
nonzero deaths. -/
theorem keyed_fragDeath_some (R : List OnePlayer)
    (h : ∀ p ∈ R, p.deaths ≠ 0) :
    ∃ kps, keyed fragDeathKey R = some kps := by
  induction R with
  | nil => exact ⟨[], rfl⟩
  | cons p R ih =>
    obtain ⟨kps, hk⟩ := ih (fun q hq => h q (List.mem_cons_of_mem _ hq))
    refine ⟨((p.frags : ℚ) / (p.deaths : ℚ), p) :: kps, ?_⟩
    simp only [keyed, fragDeathKey, if_neg (h p (List.mem_cons_self _ _)), hk]

/-- C7 (amended): every ratio-table column is total once its denominators
`games` and `time` are nonzero (zero deaths is guarded by add-one
smoothing there), but the frag/death-ratio and name sort keys divide by
the raw deaths count and fault on zero deaths; they are total exactly when
every member has nonzero deaths. -/
theorem C7_amended :
    (∀ R : List OnePlayer, (∀ p ∈ R, p.games ≠ 0 ∧ p.time ≠ 0) →
      (make_stats_table R).isSome = true) ∧
    (∀ (R : List OnePlayer) (mn : Int), 0 < mn → mn ≤ R.length →
      (∀ p ∈ R, p.deaths ≠ 0) →
      (∃ l, results_ordered R "frag_death_ratio" mn = .ok l) ∧
      (∃ l, results_ordered R "name" mn = .ok l)) := by
  constructor
  · intro R h
    induction R with
    | nil => rfl
    | cons p R ih =>
      have hp := h p (List.mem_cons_self _ _)
      have hrow : statsRow p ≠ none := by
        simp only [statsRow]
        rw [if_neg (by tauto)]
        exact Option.some_ne_none _
      obtain ⟨row, hrw⟩ := Option.ne_none_iff_exists'.mp hrow
      have htl := ih (fun q hq => h q (List.mem_cons_of_mem _ hq))
      obtain ⟨tl, htl'⟩ := Option.isSome_iff_exists.mp htl
      simp only [make_stats_table, hrw, htl']
      rfl
  · intro R mn h0 hle hdeaths
    have hng : ¬ (mn > (R.length : Int)) := by omega
    have hn0 : ¬ (mn ≤ 0) := by omega
    obtain ⟨kps, hk⟩ := keyed_fragDeath_some R hdeaths
    constructor
    · refine ⟨((sortDescBy qLe kps).map Prod.snd).take mn.toNat, ?_⟩
      unfold results_ordered
      rw [if_neg hng, if_neg hn0]
      unfold resultsSort
      rw [if_pos rfl, hk]
    · refine ⟨((sortAscBy qLe kps).map Prod.snd).take mn.toNat, ?_⟩
      unfold results_ordered
      rw [if_neg hng, if_neg hn0]
      unfold resultsSort
      rw [if_neg (by decide), if_neg (by decide), if_neg (by decide),
        if_pos rfl, hk]

/-- A zero-deaths-free player for the C7 witness. -/
def p7w : OnePlayer where
  name := "W"
  games := 1
  won := 0
  time := 600
  hand := 100
  ping := [20, 20, 20]
  frags := 5
  deaths := 2
  suics := 1
  wfrags := 0
  excellent := 0
  impressive := 0
  defence := 0
  capture := 0
  assist := 0
  weapons := [5, 0, 0, 0, 0, 0, 0, 0, 0, 0, 0, 0, 0, 0, 0, 0]
  ctf := [0, 0, 0]

/-- C7 witness: the guarded table and both ratio sorts succeed on a
concrete set whose member has nonzero games, time and deaths. -/
theorem C7_witness :
    (make_stats_table [p7w]).isSome = true ∧
    (∃ l, results_ordered [p7w] "frag_death_ratio" 1 = .ok l) ∧
    (∃ l, results_ordered [p7w] "name" 1 = .ok l) :=
  ⟨C7_amended.1 [p7w] (by decide),
   (C7_amended.2 [p7w] 1 (by norm_num) (by norm_num) (by decide)).1,
   (C7_amended.2 [p7w] 1 (by norm_num) (by norm_num) (by decide)).2⟩

-- ----------------------------  Claim C5  ---------------------------- --

/-- One InMatch dispatch step, as a pure function of the current
`Game`/`Server`/valid-flag (the body of the `oneGameProc` loop for every
line except `shutdown`, which ends the loop instead). -/
def dispatchLine (l : Line) (g : Game) (s : Server) (v : Bool) :
    Except Unit (Game × Server × Bool) :=
  match l with
  | .item => .ok (g, s, v)
  | .kill killer killed weapon =>
    let p := lineProcKills killer killed weapon g s
    .ok (p.1, p.2, v)
  | .killBad => .ok (g, s, v)
  | .ctf pid ev => .ok (lineProcCTF pid ev g, s, v)
  | .award name aw => .ok (lineProcAwards name aw g, s, v)
  | .userinfo cid name hc team ts =>
    .ok (lineProcUserInfo cid name hc team ts g, s, v)
  | .say name msg => .ok (lineProcQuotes name msg g, s, v)
  | .score ts sc ping cid nick =>
    match lineProcScores ts sc ping cid nick g with
    | .error e => .error e
    | .ok g' => .ok (g', s, v)
  | .teamscore r b => .ok ({ g with ctfscores := some (r, b) }, s, v)
  | .exitLimit ts => .ok ({ g with time := ts }, s, true)
  | .shutdown => .ok (g, s, v)
  | .init _ _ _ => .ok (g, s, v)
  | .warmup => .ok (g, s, v)
  | .other => .ok (g, s, v)

/-- Sequential dispatch of a whole line list into one `Game`. -/
def dispatchFold : List Line → Game → Server → Bool →
    Except Unit (Game × Server × Bool)
  | [], g, s, v => .ok (g, s, v)
  | l :: rest, g, s, v =>
    match dispatchLine l g s v with
    | .error e => .error e
    | .ok (g', s', v') => dispatchFold rest g' s' v'

/-- Lines seen after a mid-match init line: `Line.init`, dispatched while
InMatch, matches no event-parser rule. -/
def C10log : List Line :=
  [Line.init "q3dm6" "host" "0",
   Line.other,
   Line.userinfo "2" "A" (some 100) "0" 0,
   Line.userinfo "3" "B" (some 100) "0" 0,
   Line.init "q3dm7" "host" "0",
   Line.kill "A" "B" "SHOTGUN",
   Line.exitLimit 600,
   Line.score 600 10 20 "2" "A",
   Line.shutdown]

/-- Log in which kill and score lines follow the limit-reached exit
line. -/
def C5log : List Line :=
  [Line.init "q3dm6" "host" "0",
   Line.other,
   Line.userinfo "2" "A" (some 100) "0" 0,
   Line.userinfo "3" "B" (some 100) "0" 0,
   Line.exitLimit 600,
   Line.kill "A" "B" "SHOTGUN",
   Line.score 600 10 20 "2" "A",
   Line.shutdown]

/-- C5 counterexample: in `C5log` the limit-reached exit line (duration
600) is followed by a kill line and a score line, and the retained match
shows both were still dispatched into the current `Game`: `A`'s shotgun
counter is 1 and `A` was appended to the valid-player list *after* the
exit line — the Game was mutated again, contradicting the claimed
InMatch → Idle transition on the exit line. -/
theorem C5_counterexample :
    (mainProcessing C5log).map (fun p => p.2.map (fun g =>
      ((g.weapons.lookup "A").bind (fun wd => wd.lookup "SHO"),
        g.time, g.validp))) =
    .ok [(some 1, 600, ["A"])] := by rfl

/-- C5 (amended): a limit-reached exit line is *not* terminal: it only
records the match duration and sets the valid flag, and dispatch into the
current `Game` continues.  The segmenter leaves InMatch only at a shutdown
line (which finalizes the game and resumes Idle scanning) or at the end of
input: over a shutdown-free suffix, processing equals folding every line's
event-parser rule into the current `Game` followed by the end-of-input
finalization. -/
theorem C5_amended :
    (∀ (ls : List Line) (g : Game) (s : Server) (v : Bool)
        (cg : List Game) (n : Nat), Line.shutdown ∉ ls →
      mainGo ls (.inMatch g v) s cg n =
        (match dispatchFold ls g s v with
         | .error e => .error e
         | .ok (g', s', v') => endGame g' v' s' cg)) ∧
    (∀ (t : Int) (rest : List Line) (g : Game) (s : Server) (v : Bool)
        (cg : List Game) (n : Nat),
      mainGo (Line.exitLimit t :: rest) (.inMatch g v) s cg n =
        mainGo rest (.inMatch { g with time := t } true) s cg n) ∧
    (∀ (rest : List Line) (g : Game) (s : Server) (v : Bool)
        (cg : List Game) (n : Nat),
      mainGo (Line.shutdown :: rest) (.inMatch g v) s cg n =
        (match endGame g v s cg with
         | .error e => .error e
         | .ok (s', cg') => mainGo rest .idle s' cg' n)) := by
  refine ⟨?_, fun _ _ _ _ _ _ _ => rfl, fun _ _ _ _ _ _ => rfl⟩
  intro ls
  induction ls with
  | nil => intro g s v cg n _; rfl
  | cons l rest ih =>
    intro g s v cg n hns
    have hl : l ≠ Line.shutdown := fun he => hns (he ▸ List.mem_cons_self _ _)
    have hrest : Line.shutdown ∉ rest := fun hm => hns (List.mem_cons_of_mem _ hm)
    cases l with
    | score ts sc ping cid nick =>
      simp only [mainGo, dispatchFold, dispatchLine]
      cases hs : lineProcScores ts sc ping cid nick g with
      | error e => rfl
      | ok g' => exact ih g' s v cg n hrest
    | shutdown => exact absurd rfl hl
    | _ => simpa only [mainGo, dispatchFold, dispatchLine] using ih _ _ _ cg n hrest

/-- C5 witness: the shutdown-free equation applied to the suffix
`[exit 600, kill A B]`: both lines are dispatched into the current game
and the run ends with the end-of-input finalization. -/
theorem C5_witness :
    mainGo [Line.exitLimit 600, Line.kill "A" "B" "SHOTGUN"]
        (.inMatch g6cex false) { frags := 0 } [] 2 =
      (match dispatchFold [Line.exitLimit 600, Line.kill "A" "B" "SHOTGUN"]
          g6cex { frags := 0 } false with
       | .error e => .error e
       | .ok (g', s', v') => endGame g' v' s' []) :=
  C5_amended.1 [Line.exitLimit 600, Line.kill "A" "B" "SHOTGUN"]
    g6cex { frags := 0 } false [] 2 (by decide)

-- ---------------------------  Claim C10  ---------------------------- --

/-- C10 counterexample: in `C10log` a second init line occurs mid-match;
the kill line immediately following it *is* dispatched (the claim says the
line after an init line is never dispatched): the single retained match —
still on map `q3dm6` — records `A`'s shotgun frag from that line. -/
theorem C10_counterexample :
    (mainProcessing C10log).map (fun p => p.2.map (fun g =>
      ((g.weapons.lookup "A").bind (fun wd => wd.lookup "SHO"),
        g.mapname))) =
    .ok [(some 1, "q3dm6")] := by rfl

/-- C10 (amended): only for an init line processed in the Idle state is
the immediately following line consumed by the warm-up peek and never
dispatched: whatever non-warm-up line it is, the run is the one in which
that line is replaced by an inert line; a warm-up follower discards both
lines.  (An init line seen mid-match matches no rule and its follower is
dispatched normally, as `C10_counterexample` shows.) -/
theorem C10_amended :
    (∀ (m h gt : String) (l2 : Line) (rest : List Line) (s : Server)
        (cg : List Game) (n : Nat), l2.isWarmup = false →
      mainGo (Line.init m h gt :: l2 :: rest) .idle s cg n =
        mainGo (Line.init m h gt :: Line.other :: rest) .idle s cg n) ∧
    (∀ (m h gt : String) (rest : List Line) (s : Server)
        (cg : List Game) (n : Nat),
      mainGo (Line.init m h gt :: Line.warmup :: rest) .idle s cg n =
        mainGo rest .idle s cg n) := by
  constructor
  · intro m h gt l2 rest s cg n hw
    cases l2 <;> first | rfl | exact absurd hw (by decide)
  · intro m h gt rest s cg n
    rfl

/-- C10 witness: a kill line right after an Idle-state init line is
swallowed by the warm-up peek — the run equals the one with an inert line
there. -/
theorem C10_witness :
    mainGo (Line.init "q3dm6" "host" "0" :: Line.kill "A" "B" "SHOTGUN" ::
        [Line.shutdown]) .idle {} [] 1 =
      mainGo (Line.init "q3dm6" "host" "0" :: Line.other ::
        [Line.shutdown]) .idle {} [] 1 :=
  C10_amended.1 "q3dm6" "host" "0" (Line.kill "A" "B" "SHOTGUN")
    [Line.shutdown] {} [] 1 rfl

-- -----------------------  Aggregation lemmas  ----------------------- --

/-- Reading a list back by positions is the identity. -/
theorem range_map_getD (l : List Nat) :
    (List.range l.length).map (fun i => l.getD i 0) = l := by
  induction l with
  | nil => rfl
  | cons a t ih =>
    rw [List.length_cons, List.range_succ_eq_map, List.map_cons, List.map_map]
    simp only [List.getD_cons_zero, Function.comp_def, List.getD_cons_succ]
    rw [ih]

/-- Component `k < n` of a map over `range n`. -/
theorem getD_map_range (n k : Nat) (f : Nat → Nat) (hk : k < n) :
    ((List.range n).map f).getD k 0 = f k := by
  rw [List.getD_eq_getElem?_getD, List.getElem?_map, List.getElem?_range hk]
  rfl

/-- Pointwise sums split. -/
theorem sum_map_add {α : Type} (l : List α) (f g : α → Nat) :
    (l.map (fun x => f x + g x)).sum = (l.map f).sum + (l.map g).sum := by
  induction l with
  | nil => rfl
  | cons a t ih => simp only [List.map_cons, List.sum_cons, ih]; omega

/-- Summing the `n` column sums equals summing the row sums. -/
theorem sum_cols (rows : List (List Nat)) (n : Nat)
    (hn : ∀ r ∈ rows, r.length = n) :
    ((List.range n).map
      (fun i => (rows.map (fun r => r.getD i 0)).sum)).sum =
    (rows.map List.sum).sum := by
  induction rows with
  | nil => simp
  | cons r rows ih =>
    simp only [List.map_cons, List.sum_cons]
    have h1 : ((List.range n).map
        (fun i => r.getD i 0 + (rows.map (fun rr => rr.getD i 0)).sum)).sum =
        ((List.range n).map (fun i => r.getD i 0)).sum +
        ((List.range n).map (fun i => (rows.map (fun rr => rr.getD i 0)).sum)).sum :=
      sum_map_add _ _ _
    have h2 : ((List.range n).map (fun i => r.getD i 0)).sum = r.sum := by
      have hr : r.length = n := hn r (List.mem_cons_self _ _)
      rw [← hr, range_map_getD]
    rw [h1, h2, ih (fun rr hrr => hn rr (List.mem_cons_of_mem _ hrr))]

/-- `csum` of rectangular rows: total equals the sum of the row sums. -/
theorem csum_sum (rows : List (List Nat)) (n : Nat)
    (hn : ∀ r ∈ rows, r.length = n) :
    (csum rows).sum = (rows.map List.sum).sum := by
  cases rows with
  | nil => rfl
  | cons r rows =>
    simp only [csum]
    rw [hn r (List.mem_cons_self _ _)]
    exact sum_cols (r :: rows) n hn

/-- `csum` of rectangular rows: component `k` is the column sum. -/
theorem csum_getD (rows : List (List Nat)) (n k : Nat)
    (hn : ∀ r ∈ rows, r.length = n) (hk : k < n) :
    (csum rows).getD k 0 = (rows.map (fun r => r.getD k 0)).sum := by
  cases rows with
  | nil => simp [csum]
  | cons r rows =>
    simp only [csum]
    rw [hn r (List.mem_cons_self _ _)]
    exact getD_map_range n k _ hk

/-- `csum` of nonempty rows of length 3, written out. -/
theorem csum_len3 (rows : List (List Nat))
    (hn : ∀ r ∈ rows, r.length = 3) (hne : rows ≠ []) :
    csum rows =
      [(rows.map (fun r => r.getD 0 0)).sum,
       (rows.map (fun r => r.getD 1 0)).sum,
       (rows.map (fun r => r.getD 2 0)).sum] := by
  cases rows with
  | nil => exact absurd rfl hne
  | cons r rows =>
    simp only [csum]
    rw [hn r (List.mem_cons_self _ _)]
    rfl

/-- Sums correspond along a `Forall₂` relation. -/
theorem forall₂_sum {α β : Type} (Rr : α → β → Prop) (l1 : List α)
    (l2 : List β) (f : α → Nat) (h : β → Nat)
    (hall : List.Forall₂ Rr l1 l2) (hfg : ∀ a b, Rr a b → f a = h b) :
    (l1.map f).sum = (l2.map h).sum := by
  induction hall with
  | nil => rfl
  | cons hab _ ih =>
    simp only [List.map_cons, List.sum_cons, ih, hfg _ _ hab]

/-- Every aggregated player in `psGo`'s output comes from a successful
`aggName` fold over some listed name. -/
theorem psGo_mem (cg : List Game) (ns : List String) (R : List OnePlayer)
    (hR : psGo cg ns = .ok R) (p : OnePlayer) (hp : p ∈ R) :
    ∃ name, name ∈ ns ∧ aggName cg name = .ok (some p) := by
  induction ns generalizing R with
  | nil =>
    simp only [psGo, Except.ok.injEq] at hR
    rw [← hR] at hp
    exact absurd hp (List.not_mem_nil p)
  | cons n ns ih =>
    simp only [psGo] at hR
    cases ha : aggName cg n with
    | error e => rw [ha] at hR; exact absurd hR (by simp)
    | ok o =>
      rw [ha] at hR
      cases o with
      | none =>
        obtain ⟨name, hm, hagg⟩ := ih R hR hp
        exact ⟨name, List.mem_cons_of_mem _ hm, hagg⟩
      | some q =>
        cases htl : psGo cg ns with
        | error e => rw [htl] at hR; exact absurd hR (by simp)
        | ok tl =>
          rw [htl] at hR
          simp only [Except.ok.injEq] at hR
          rw [← hR] at hp
          rcases List.mem_cons.mp hp with hpq | hptl
          · exact ⟨n, List.mem_cons_self _ _, hpq ▸ ha⟩
          · obtain ⟨name, hm, hagg⟩ := ih tl htl hptl
            exact ⟨name, List.mem_cons_of_mem _ hm, hagg⟩

/-- `collect` pairs the games where the player is tagged valid, in order,
with successful `player_stats` records. -/
theorem collect_forall₂ (name : String) (cg : List Game) (sts : List PStats)
    (hc : collect name cg = .ok sts) :
    List.Forall₂ (fun g st => player_stats g name = .ok (some st))
      (cg.filter (fun g => decide (name ∈ g.validp))) sts := by
  induction cg generalizing sts with
  | nil =>
    simp only [collect, Except.ok.injEq] at hc
    rw [← hc]
    exact List.Forall₂.nil
  | cons g cg ih =>
    by_cases hv : name ∈ g.validp
    · simp only [collect, if_pos hv] at hc
      cases hps : player_stats g name with
      | error e => rw [hps] at hc; exact absurd hc (by simp)
      | ok o =>
        rw [hps] at hc
        cases o with
        | none => exact absurd hc (by simp)
        | some st =>
          cases htl : collect name cg with
          | error e => rw [htl] at hc; exact absurd hc (by simp)
          | ok tl =>
            rw [htl] at hc
            simp only [Except.ok.injEq] at hc
            rw [← hc]
            rw [List.filter_cons_of_pos (by simpa using hv)]
            exact List.Forall₂.cons hps (ih tl htl)
    · simp only [collect, if_neg hv] at hc
      rw [List.filter_cons_of_neg (by simpa using hv)]
      exact ih sts hc

/-- What a successful `aggName` fold guarantees about the produced career
record: nonempty contributing records, the player's name, and the frag,
weapon-vector and CTF-vector totals. -/
theorem aggName_spec (cg : List Game) (name : String) (p : OnePlayer)
    (h : aggName cg name = .ok (some p)) :
    ∃ sts, collect name cg = .ok sts ∧ sts ≠ [] ∧ p.name = name ∧
      p.frags = (sts.map (·.frags)).sum ∧
      p.weapons = csum (sts.map (·.weapon_count)) ∧
      p.ctf = csum (sts.map (·.ctf_events)) := by
  unfold aggName at h
  cases hc : collect name cg with
  | error e => rw [hc] at h; exact absurd h (by simp)
  | ok sts =>
    rw [hc] at h
    dsimp only at h
    refine ⟨sts, rfl, ?_⟩
    by_cases hz : (sts.map (·.frags)).sum = 0
    · rw [if_pos hz] at h; exact absurd h (by simp)
    · rw [if_neg hz] at h
      by_cases haw : ¬ sts.all (fun st => 5 ≤ st.awards.length)
      · rw [if_pos haw] at h; exact absurd h (by simp)
      · rw [if_neg haw] at h
        cases sts with
        | nil => exact absurd h (by simp)
        | cons st0 stRest =>
          simp only [Except.ok.injEq, Option.some.injEq] at h
          refine ⟨by simp, ?_, ?_, ?_, ?_⟩ <;> rw [← h]

/-- The per-match CTF contribution the aggregate vector actually sums:
the player's counter at event code `k` when the match is gametype `'4'`,
and 0 otherwise. -/
def ctfContribution (g : Game) (name k : String) : Nat :=
  if g.gametype = "4" then
    ((g.ctf.lookup name).bind (fun d => d.lookup k)).getD 0
  else 0

/-- A successful `ctfEventsCalc` returns exactly the three contributions
for codes `'0'`, `'2'`, `'3'`. -/
theorem ctfEventsCalc_spec (g : Game) (name : String) (cev : List Nat)
    (h : ctfEventsCalc g name = .ok cev) :
    cev = [ctfContribution g name "0", ctfContribution g name "2",
      ctfContribution g name "3"] := by
  unfold ctfEventsCalc at h
  unfold ctfContribution
  by_cases h4 : g.gametype = "4"
  · rw [if_pos h4] at h
    rw [if_pos h4, if_pos h4, if_pos h4]
    cases hcd : g.ctf.lookup name with
    | none => rw [hcd] at h; simp at h
    | some cd =>
      rw [hcd] at h
      dsimp only at h
      cases h0 : cd.lookup "0" with
      | none => rw [h0] at h; simp at h
      | some t0 =>
        rw [h0] at h
        cases h2 : cd.lookup "2" with
        | none => rw [h2] at h; simp at h
        | some t2 =>
          rw [h2] at h
          cases h3 : cd.lookup "3" with
          | none => rw [h3] at h; simp at h
          | some t3 =>
            rw [h3] at h
            simp only [Except.ok.injEq] at h
            rw [← h]
            simp [h0, h2, h3]
  · rw [if_neg h4] at h
    rw [if_neg h4, if_neg h4, if_neg h4]
    simp only [Except.ok.injEq] at h
    rw [← h]

/-- `lookupWeapons` preserves the length of the name list. -/
theorem lookupWeapons_length (wd : Dict Nat) (ws : List String)
    (cs : List Nat) (h : lookupWeapons wd ws = .ok cs) :
    cs.length = ws.length := by
  induction ws generalizing cs with
  | nil =>
    simp only [lookupWeapons, Except.ok.injEq] at h
    subst h
    rfl
  | cons w ws ih =>
    simp only [lookupWeapons] at h
    cases h1 : wd.lookup (w.take 3) with
    | none => rw [h1] at h; simp at h
    | some c =>
      rw [h1] at h
      cases h2 : lookupWeapons wd ws with
      | error e => rw [h2] at h; simp at h
      | ok cs' =>
        rw [h2] at h
        simp only [Except.ok.injEq] at h
        rw [← h]
        simp [ih cs' h2]

/-- Key facts `player_stats` guarantees about a produced record: the
weapon dictionary it read, the 16 weapon-list lookups, the frag total and
the CTF event triple. -/
theorem player_stats_fields (g : Game) (name : String) (st : PStats)
    (h : player_stats g name = .ok (some st)) :
    ∃ wd, g.weapons.lookup name = some wd ∧
      lookupWeapons wd wlist = .ok st.weapon_count ∧
      st.frags = (wd.map Prod.snd).sum ∧
      ctfEventsCalc g name = .ok st.ctf_events := by
  unfold player_stats at h
  by_cases hv : name ∉ g.validp
  · rw [if_pos hv] at h; simp at h
  · rw [if_neg hv] at h
    cases h1 : g.ptime.lookup name with
    | none => rw [h1] at h; simp at h
    | some pt =>
    rw [h1] at h; dsimp only at h
    cases h2 : g.players.lookup name with
    | none => rw [h2] at h; simp at h
    | some pp =>
    rw [h2] at h; dsimp only at h
    cases h3 : g.handicap.lookup name with
    | none => rw [h3] at h; simp at h
    | some hand =>
    rw [h3] at h; dsimp only at h
    cases h4 : winCalc g name with
    | error e => rw [h4] at h; simp at h
    | ok win =>
    rw [h4] at h; dsimp only at h
    cases h5 : g.awards.lookup name with
    | none => rw [h5] at h; simp at h
    | some ad =>
    rw [h5] at h; dsimp only at h
    cases h6 : g.killsp.lookup "<world>" with
    | none => rw [h6] at h; simp at h
    | some wl =>
    rw [h6] at h; dsimp only at h
    cases h7 : g.deathsp.lookup name with
    | none => rw [h7] at h; simp at h
    | some deaths =>
    rw [h7] at h; dsimp only at h
    cases h8 : g.killsp.lookup name with
    | none => rw [h8] at h; simp at h
    | some kl =>
    rw [h8] at h; dsimp only at h
    cases h9 : g.weapons.lookup name with
    | none => rw [h9] at h; simp at h
    | some wd =>
    rw [h9] at h; dsimp only at h
    cases h10 : lookupWeapons wd wlist with
    | error e => rw [h10] at h; simp at h
    | ok wc =>
    rw [h10] at h; dsimp only at h
    cases h11 : ctfEventsCalc g name with
    | error e => rw [h11] at h; simp at h
    | ok cev =>
    rw [h11] at h; dsimp only at h
    simp only [Except.ok.injEq, Option.some.injEq] at h
    subst h
    exact ⟨wd, rfl, h10, rfl, rfl⟩

/-- A dictionary whose key list is the twelve standard weapon codes is a
literal twelve-entry list. -/
theorem dict_shape (wd : Dict Nat)
    (h : wd.map Prod.fst =
      ["SHO", "GAU", "MAC", "GRE", "ROC", "PLA", "RAI", "LIG", "BFG",
       "TEL", "NAI", "CHA"]) :
    ∃ a b c d e f g1 h1 i j k l, wd =
      [("SHO", a), ("GAU", b), ("MAC", c), ("GRE", d), ("ROC", e),
       ("PLA", f), ("RAI", g1), ("LIG", h1), ("BFG", i), ("TEL", j),
       ("NAI", k), ("CHA", l)] := by
  rcases wd with _ | ⟨⟨k1, a⟩, wd⟩; · simp at h
  rcases wd with _ | ⟨⟨k2, b⟩, wd⟩; · simp at h
  rcases wd with _ | ⟨⟨k3, c⟩, wd⟩; · simp at h
  rcases wd with _ | ⟨⟨k4, d⟩, wd⟩; · simp at h
  rcases wd with _ | ⟨⟨k5, e⟩, wd⟩; · simp at h
  rcases wd with _ | ⟨⟨k6, f⟩, wd⟩; · simp at h
  rcases wd with _ | ⟨⟨k7, g1⟩, wd⟩; · simp at h
  rcases wd with _ | ⟨⟨k8, h1⟩, wd⟩; · simp at h
  rcases wd with _ | ⟨⟨k9, i⟩, wd⟩; · simp at h
  rcases wd with _ | ⟨⟨k10, j⟩, wd⟩; · simp at h
  rcases wd with _ | ⟨⟨k11, k⟩, wd⟩; · simp at h
  rcases wd with _ | ⟨⟨k12, l⟩, wd⟩; · simp at h
  simp only [List.map_cons, List.cons.injEq, List.map_eq_nil_iff] at h
  obtain ⟨e1, e2, e3, e4, e5, e6, e7, e8, e9, e10, e11, e12, e13⟩ := h
  subst e1; subst e2; subst e3; subst e4; subst e5; subst e6; subst e7
  subst e8; subst e9; subst e10; subst e11; subst e12; subst e13
  exact ⟨a, b, c, d, e, f, g1, h1, i, j, k, l, rfl⟩

/-- The 16 `wlist` lookups on the standard twelve-code dictionary: the
grenade, rocket, plasma and BFG codes are read twice (once for the plain
and once for the `_SPLASH`/second sub-type name). -/
theorem lookupWeapons_std (a b c d e f g1 h1 i j k l : Nat) :
    lookupWeapons
      [("SHO", a), ("GAU", b), ("MAC", c), ("GRE", d), ("ROC", e),
       ("PLA", f), ("RAI", g1), ("LIG", h1), ("BFG", i), ("TEL", j),
       ("NAI", k), ("CHA", l)] wlist =
    .ok [a, b, c, d, d, e, e, f, f, g1, h1, i, i, j, k, l] := rfl

/-- Per-match weapon-vector relation: the 16-component vector sums to the
match frags plus the doubled grenade/rocket/plasma/BFG components. -/
theorem st_weapon_rel (g : Game) (name : String) (st : PStats)
    (hps : player_stats g name = .ok (some st))
    (hwf : ∀ wd, g.weapons.lookup name = some wd →
      wd.map Prod.fst = initWeapons.map Prod.fst) :
    st.weapon_count.length = 16 ∧
    st.weapon_count.sum = st.frags + st.weapon_count.getD 3 0 +
      st.weapon_count.getD 5 0 + st.weapon_count.getD 7 0 +
      st.weapon_count.getD 11 0 := by
  obtain ⟨wd, hlk, hlw, hfr, -⟩ := player_stats_fields g name st hps
  have hsh := hwf wd hlk
  rw [show initWeapons.map Prod.fst =
    ["SHO", "GAU", "MAC", "GRE", "ROC", "PLA", "RAI", "LIG", "BFG",
     "TEL", "NAI", "CHA"] from rfl] at hsh
  obtain ⟨a, b, c, d, e, f, g1, h1, i, j, k, l, rfl⟩ := dict_shape wd hsh
  rw [lookupWeapons_std] at hlw
  simp only [Except.ok.injEq] at hlw
  rw [← hlw, hfr]
  refine ⟨rfl, ?_⟩
  rw [show (([a, b, c, d, d, e, e, f, f, g1, h1, i, i, j, k, l] :
    List Nat)).getD 3 0 = d from rfl]
  rw [show (([a, b, c, d, d, e, e, f, f, g1, h1, i, i, j, k, l] :
    List Nat)).getD 5 0 = e from rfl]
  rw [show (([a, b, c, d, d, e, e, f, f, g1, h1, i, i, j, k, l] :
    List Nat)).getD 7 0 = f from rfl]
  rw [show (([a, b, c, d, d, e, e, f, f, g1, h1, i, i, j, k, l] :
    List Nat)).getD 11 0 = i from rfl]
  simp only [List.sum_cons, List.sum_nil, List.map_cons, List.map_nil]
  omega

/-- A `Forall₂` right member has a related left member. -/
theorem forall₂_mem_right {α β : Type} (Rr : α → β → Prop) (l1 : List α)
    (l2 : List β) (h : List.Forall₂ Rr l1 l2) (b : β) (hb : b ∈ l2) :
    ∃ a, a ∈ l1 ∧ Rr a b := by
  induction h with
  | nil => exact absurd hb (List.not_mem_nil b)
  | cons hab htail ih =>
    rcases List.mem_cons.mp hb with rfl | hb'
    · exact ⟨_, List.mem_cons_self _ _, hab⟩
    · obtain ⟨a, ha, hr⟩ := ih hb'
      exact ⟨a, List.mem_cons_of_mem _ ha, hr⟩

-- ----------------------------  Claim C1  ---------------------------- --

/-- C1 (amended): for every player of the aggregated output, the sum of
the 16 components of the per-weapon total frag vector equals the player's
total frags **plus** the grenade, rocket, plasma and BFG components
(positions 3, 5, 7, 11; each of those four codes appears twice in the
vector), provided every weapon dictionary read for the player carries the
standard twelve-code key list — as every dictionary seeded by
`lineProcUserInfo` does. -/
theorem C1_amended (cgames : List Game) (R : List OnePlayer)
    (hR : player_stats_total cgames = .ok R) (p : OnePlayer) (hp : p ∈ R)
    (hwf : ∀ g ∈ cgames,
      ((g.weapons.lookup p.name).map (fun wd => wd.map Prod.fst)).getD
        (initWeapons.map Prod.fst) = initWeapons.map Prod.fst) :
    p.weapons.sum = p.frags + p.weapons.getD 3 0 + p.weapons.getD 5 0 +
      p.weapons.getD 7 0 + p.weapons.getD 11 0 := by
  obtain ⟨name, hmem, hagg⟩ := psGo_mem cgames (allnames cgames) R hR p hp
  obtain ⟨sts, hc, hne, hname, hfr, hw, -⟩ := aggName_spec cgames name p hagg
  have hf2 := collect_forall₂ name cgames sts hc
  have hgame : ∀ st ∈ sts, ∃ g', g' ∈ cgames ∧
      player_stats g' name = .ok (some st) := by
    intro st hst
    obtain ⟨g', hg', hps⟩ := forall₂_mem_right _ _ _ hf2 st hst
    exact ⟨g', List.mem_of_mem_filter hg', hps⟩
  have hlen : ∀ r ∈ sts.map (·.weapon_count), r.length = 16 := by
    intro r hr
    obtain ⟨st, hst, rfl⟩ := List.mem_map.mp hr
    obtain ⟨g', hg', hps⟩ := hgame st hst
    obtain ⟨wd, hlk, hlw, -, -⟩ := player_stats_fields g' name st hps
    rw [lookupWeapons_length wd wlist _ hlw]
    rfl
  have hrel : ∀ st ∈ sts, st.weapon_count.sum = st.frags +
      st.weapon_count.getD 3 0 + st.weapon_count.getD 5 0 +
      st.weapon_count.getD 7 0 + st.weapon_count.getD 11 0 := by
    intro st hst
    obtain ⟨g', hg', hps⟩ := hgame st hst
    have hwf' : ∀ wd, g'.weapons.lookup name = some wd →
        wd.map Prod.fst = initWeapons.map Prod.fst := by
      intro wd hwd
      have hx := hwf g' hg'
      rw [hname, hwd] at hx
      simpa using hx
    exact (st_weapon_rel g' name st hps hwf').2
  rw [hw, csum_sum _ 16 hlen, csum_getD _ 16 3 hlen (by norm_num),
    csum_getD _ 16 5 hlen (by norm_num), csum_getD _ 16 7 hlen (by norm_num),
    csum_getD _ 16 11 hlen (by norm_num), hfr]
  simp only [List.map_map, Function.comp_def]
  have hcong : (sts.map (fun st => st.weapon_count.sum)) =
      sts.map (fun st => st.frags + st.weapon_count.getD 3 0 +
        st.weapon_count.getD 5 0 + st.weapon_count.getD 7 0 +
        st.weapon_count.getD 11 0) :=
    List.map_congr_left hrel
  rw [hcong]
  have d1 := sum_map_add sts
    (fun st => st.frags + st.weapon_count.getD 3 0 +
      st.weapon_count.getD 5 0 + st.weapon_count.getD 7 0)
    (fun st => st.weapon_count.getD 11 0)
  have d2 := sum_map_add sts
    (fun st => st.frags + st.weapon_count.getD 3 0 +
      st.weapon_count.getD 5 0)
    (fun st => st.weapon_count.getD 7 0)
  have d3 := sum_map_add sts
    (fun st => st.frags + st.weapon_count.getD 3 0)
    (fun st => st.weapon_count.getD 5 0)
  have d4 := sum_map_add sts (fun st => st.frags)
    (fun st => st.weapon_count.getD 3 0)
  omega

-- ----------------------------  Claim C9  ---------------------------- --

/-- The claim's "sum of that player's counter for that code over the
player's valid matches" (gametype-`'4'` matches contribute their counter,
other gametypes contribute 0, exactly as `player_stats` computes). -/
def ctfTotal (cgames : List Game) (name k : String) : Nat :=
  ((cgames.filter (fun g => decide (name ∈ g.validp))).map
    (fun g => ctfContribution g name k)).sum

/-- C9 (amended): each player's career record carries a per-CTF-event
total vector over the **three** codes `'0'`, `'2'`, `'3'` (code `'1'` is
not aggregated): component `i` is the sum over the player's valid matches
of the code-`'0'`/`'2'`/`'3'` counter (counted only in gametype-`'4'`
matches), and the CTF row exposes these three counters plus the
defence/assist/capture award counts. -/
theorem C9_amended (cgames : List Game) (R : List OnePlayer)
    (hR : player_stats_total cgames = .ok R) (p : OnePlayer) (hp : p ∈ R) :
    p.ctf = [ctfTotal cgames p.name "0", ctfTotal cgames p.name "2",
      ctfTotal cgames p.name "3"] ∧
    (p.name, p.ctf ++ [p.defence, p.assist, p.capture]) ∈ make_ctf_table R := by
  obtain ⟨name, hmem, hagg⟩ := psGo_mem cgames (allnames cgames) R hR p hp
  obtain ⟨sts, hc, hne, hname, -, -, hctf⟩ := aggName_spec cgames name p hagg
  have hf2 := collect_forall₂ name cgames sts hc
  have hspec : ∀ (g' : Game) (st : PStats),
      player_stats g' name = .ok (some st) →
      st.ctf_events = [ctfContribution g' name "0",
        ctfContribution g' name "2", ctfContribution g' name "3"] := by
    intro g' st hps
    obtain ⟨-, -, -, -, hcev⟩ := player_stats_fields g' name st hps
    exact ctfEventsCalc_spec g' name _ hcev
  have hlen : ∀ r ∈ sts.map (·.ctf_events), r.length = 3 := by
    intro r hr
    obtain ⟨st, hst, rfl⟩ := List.mem_map.mp hr
    obtain ⟨g', hg', hps⟩ := forall₂_mem_right _ _ _ hf2 st hst
    rw [hspec g' st hps]
    rfl
  have hnemap : sts.map (·.ctf_events) ≠ [] := by
    cases sts with
    | nil => exact absurd rfl hne
    | cons st sts => simp
  have hcols : ∀ k : Nat, k < 3 →
      ((cgames.filter (fun g => decide (name ∈ g.validp))).map
        (fun g => ctfContribution g name (["0", "2", "3"].getD k "0"))).sum =
      ((sts.map (·.ctf_events)).map (fun r => r.getD k 0)).sum := by
    intro k hk
    rw [List.map_map]
    refine forall₂_sum _ _ _ _ _ hf2 ?_
    intro g' st hps
    show ctfContribution g' name (["0", "2", "3"].getD k "0") =
      st.ctf_events.getD k 0
    rw [hspec g' st hps]
    interval_cases k <;> rfl
  constructor
  · rw [hname, hctf, csum_len3 _ hlen hnemap]
    have h0 := hcols 0 (by norm_num)
    have h1 := hcols 1 (by norm_num)
    have h2 := hcols 2 (by norm_num)
    simp only [List.getD_cons_zero, List.getD_cons_succ] at h0 h1 h2
    rw [← h0, ← h1, ← h2]
    rfl
  · exact List.mem_map_of_mem _ hp

-- -------------------  C1/C9 concrete runs  ------------------- --

/-- A complete one-match log: two players register at 0:00, `A` frags `B`
with a grenade, the time limit is hit at 10:00, `A` scores (valid). -/
def C1log : List Line :=
  [Line.init "q3dm6" "host" "0",
   Line.other,
   Line.userinfo "2" "A" (some 100) "0" 0,
   Line.userinfo "3" "B" (some 100) "0" 0,
   Line.kill "A" "B" "GRENADE",
   Line.exitLimit 600,
   Line.score 600 10 20 "2" "A",
   Line.shutdown]

/-- The matches the segmenter retains from `C1log`. -/
def C1cg : List Game :=
  match mainProcessing C1log with
  | .ok pr => pr.2
  | .error _ => []

/-- The aggregated career record of the unique player of `C1log`. -/
def C1p : OnePlayer :=
  match player_stats_total C1cg with
  | .ok (q :: _) => q
  | _ => default

/-- C1 counterexample: in the aggregated output of the `C1log` run the
player `A` has total frags 1 (one grenade kill) but the per-weapon total
frag vector sums to 2 — the grenade counter is read twice (positions 3 and
4 of the 16-component vector) — so the sum does not equal the total
frags. -/
theorem C1_counterexample :
    (mainProcessing C1log).map (fun pr => pr.2) = .ok C1cg ∧
    (player_stats_total C1cg).map (fun R => R.map
      (fun q => (q.name, q.frags, q.weapons.sum, q.weapons))) =
    .ok [("A", 1, 2, [0, 0, 0, 1, 1, 0, 0, 0, 0, 0, 0, 0, 0, 0, 0, 0])] :=
  ⟨rfl, rfl⟩

/-- C1 witness: the amended sum relation at the concrete `C1log` run. -/
theorem C1_witness :
    player_stats_total C1cg = .ok [C1p] ∧
    C1p.weapons.sum = C1p.frags + C1p.weapons.getD 3 0 +
      C1p.weapons.getD 5 0 + C1p.weapons.getD 7 0 +
      C1p.weapons.getD 11 0 :=
  ⟨rfl, C1_amended C1cg [C1p] rfl C1p (List.mem_singleton.mpr rfl)
    (by decide)⟩

/-- A complete capture-the-flag match: `A` (team 1) takes five CTF events
of code `'1'`, frags `B` once with the shotgun, team scores 1:0, time
limit at 10:00, `A` scores (valid). -/
def C9log : List Line :=
  [Line.init "ctfmap" "host" "4",
   Line.other,
   Line.userinfo "2" "A" (some 100) "1" 0,
   Line.userinfo "3" "B" (some 100) "2" 0,
   Line.ctf "2" "1", Line.ctf "2" "1", Line.ctf "2" "1",
   Line.ctf "2" "1", Line.ctf "2" "1",
   Line.kill "A" "B" "SHOTGUN",
   Line.teamscore "1" "0",
   Line.exitLimit 600,
   Line.score 600 10 20 "2" "A",
   Line.shutdown]

/-- The matches the segmenter retains from `C9log`. -/
def C9cg : List Game :=
  match mainProcessing C9log with
  | .ok pr => pr.2
  | .error _ => []

/-- The aggregated career record of the unique player of `C9log`. -/
def C9p : OnePlayer :=
  match player_stats_total C9cg with
  | .ok (q :: _) => q
  | _ => default

/-- C9 counterexample: the aggregated CTF vector has *three* components
(codes `'0'`, `'2'`, `'3'`), not four: in the `C9log` run player `A`'s
code-`'1'` counter sums to 5 across the valid matches, yet the output
vector is `[0, 0, 0]` — no component carries the code-`'1'` total. -/
theorem C9_counterexample :
    (mainProcessing C9log).map (fun pr => pr.2) = .ok C9cg ∧
    (player_stats_total C9cg).map (fun R => R.map
      (fun q => (q.name, q.ctf, q.ctf.length))) =
    .ok [("A", ([0, 0, 0] : List Nat), 3)] ∧
    (C9cg.map (fun g =>
      ((g.ctf.lookup "A").bind (fun d => d.lookup "1")).getD 0)).sum = 5 :=
  ⟨rfl, rfl, rfl⟩

/-- C9 witness: the amended three-code vector relation and the CTF-row
membership at the concrete `C9log` run. -/
theorem C9_witness :
    player_stats_total C9cg = .ok [C9p] ∧
    C9p.ctf = [ctfTotal C9cg C9p.name "0", ctfTotal C9cg C9p.name "2",
      ctfTotal C9cg C9p.name "3"] ∧
    (C9p.name, C9p.ctf ++ [C9p.defence, C9p.assist, C9p.capture]) ∈
      make_ctf_table [C9p] :=
  ⟨rfl,
   (C9_amended C9cg [C9p] rfl C9p (List.mem_singleton.mpr rfl)).1,
   (C9_amended C9cg [C9p] rfl C9p (List.mem_singleton.mpr rfl)).2⟩

end Pyqsmod
